import Mathlib

/-!
Verification of the redirector component of the slash link-shortener
(`src/api/v1/redirector.go`) against its natural-language specification.

The development shallow-embeds the Go code:
* `Slash.GoURL` models the relevant slice of Go's standard `net/url`
  package (`url.ParseRequestURI`, i.e. `parse` with `viaRequest = true`),
  which `isValidURLString` calls.  Go operates on bytes; the model operates
  on Unicode characters, which coincides on ASCII input (a non-ASCII
  character encodes to bytes `>= 0x80`, none of which is a control byte,
  `'%'`, `'+'`, an ASCII letter or a digit, so every branch below treats
  them alike).
* `Slash` models the data, the HTML renderer `redirectToShortcut` and the
  route handler registered by `registerRedirectorRoutes`, with the store
  passed explicitly and every store call recorded in a trace.
-/

namespace Slash

namespace GoURL

/-- Character classes used by `net/url`. -/
def isAlpha (c : Char) : Bool :=
  ('a' ≤ c && c ≤ 'z') || ('A' ≤ c && c ≤ 'Z')

/-- Decimal digit test, Go `'0' <= c && c <= '9'`. -/
def isDigit (c : Char) : Bool :=
  '0' ≤ c && c ≤ '9'

/-- Go `ishex`. -/
def isHex (c : Char) : Bool :=
  isDigit c || ('a' ≤ c && c ≤ 'f') || ('A' ≤ c && c ≤ 'F')

/-- Go `unhex`: numeric value of a hex digit. -/
def unhex (c : Char) : Nat :=
  if isDigit c then c.toNat - 48
  else if 'a' ≤ c && c ≤ 'f' then c.toNat - 97 + 10
  else if 'A' ≤ c && c ≤ 'F' then c.toNat - 65 + 10
  else 0

/-- Go `stringContainsCTLByte`: a control byte is `< 0x20` or `== 0x7f`. -/
def isCTLChar (c : Char) : Bool :=
  c.toNat < 0x20 || c.toNat == 0x7f

/-- Whether the string contains a control byte (character-level model). -/
def containsCTLByte (s : String) : Bool :=
  s.data.any isCTLChar

/-- Go `strings.HasPrefix` on the character level. -/
def startsWithL (s pre : String) : Bool :=
  pre.data.isPrefixOf s.data

/-- Go `strings.HasSuffix` on the character level. -/
def endsWithL (s suf : String) : Bool :=
  suf.data.isSuffixOf s.data

/-- The first `n` characters, Go `s[:n]` (ASCII-faithful). -/
def strTake (s : String) (n : Nat) : String :=
  ⟨s.data.take n⟩

/-- Everything from character `n` on, Go `s[n:]` (ASCII-faithful). -/
def strDrop (s : String) (n : Nat) : String :=
  ⟨s.data.drop n⟩

/-- Go `s[a:b]` (ASCII-faithful). -/
def strSlice (s : String) (a b : Nat) : String :=
  ⟨(s.data.take b).drop a⟩

/-- The string up to (excluding) the first occurrence of `c`: the first
component of Go `strings.Cut(s, string(c))`. -/
def cutBefore (s : String) (c : Char) : String :=
  ⟨s.data.takeWhile (fun x => x != c)⟩

/-- Index of the last occurrence of `c`, Go `strings.LastIndex` with a
one-character separator (ASCII-faithful). -/
def lastIdxOfAux (c : Char) : List Char → Nat → Option Nat → Option Nat
  | [], _, acc => acc
  | x :: xs, i, acc => lastIdxOfAux c xs (i + 1) (if x = c then some i else acc)

/-- Go `strings.LastIndex(s, string(c))` (ASCII-faithful). -/
def lastIdxOf (s : String) (c : Char) : Option Nat :=
  lastIdxOfAux c s.data 0 none

/-- Go `strings.Index(s, pat)`: smallest index where `pat` starts, if any
(ASCII-faithful). -/
def strIndex (s pat : String) : Option Nat :=
  (List.range (s.data.length + 1)).find? (fun i => pat.data.isPrefixOf (s.data.drop i))

/-- The encoding modes of `net/url` that `ParseRequestURI` can reach. -/
inductive Encoding
  | path
  | host
  | zone
  | userPassword
deriving DecidableEq

/-- Go `shouldEscape(c, encodeHost)` (for bytes `< 0x80`): alphanumerics,
the host sub-delims and the unreserved punctuation need no escaping. -/
def shouldEscapeHost (c : Char) : Bool :=
  if isAlpha c || isDigit c then false
  else if c ∈ ['!', '$', '&', Char.ofNat 39, '(', ')', '*', '+', ',', ';', '=',
      ':', '[', ']', '<', '>', '"'] then false
  else if c ∈ ['-', '_', '.', '~'] then false
  else true

/-- Go `shouldEscape(v, encodeHost)` on a byte value (used for the zone
check, which has no `< 0x80` guard). -/
def shouldEscapeHostByte (v : Nat) : Bool :=
  if v < 128 then shouldEscapeHost (Char.ofNat v) else true

/-- Error-freedom of Go `unescape(s, mode)` for the modes reachable from
`ParseRequestURI`.  Only the validity checks matter here, not the decoded
string.  (Go's dedicated `'+'` case never errors; for our modes the default
case below agrees, since `shouldEscapeHost '+' = false`.) -/
def unescapeOk (mode : Encoding) : List Char → Bool
  | [] => true
  | c :: rest =>
    if c = '%' then
      match rest with
      | c1 :: c2 :: rest2 =>
        if !(isHex c1 && isHex c2) then false
        else if mode = Encoding.host && unhex c1 < 8 && !(c1 = '2' && c2 = '5') then
          false
        else if mode = Encoding.zone && !(c1 = '2' && c2 = '5')
            && unhex c1 * 16 + unhex c2 ≠ 32
            && shouldEscapeHostByte (unhex c1 * 16 + unhex c2) then
          false
        else unescapeOk mode rest2
      | _ => false
    else if (mode = Encoding.host || mode = Encoding.zone) && c.toNat < 128
        && shouldEscapeHost c then
      false
    else unescapeOk mode rest

/-- Go `validOptionalPort`: empty, or `':'` followed by digits only. -/
def validOptionalPort (port : String) : Bool :=
  match port.data with
  | [] => true
  | c :: rest => c = ':' && rest.all isDigit

/-- Go `validUserinfo`. -/
def validUserinfo (s : String) : Bool :=
  s.data.all fun r =>
    isAlpha r || isDigit r ||
    r ∈ ['-', '.', '_', ':', '~', '!', '$', '&', Char.ofNat 39, '(', ')',
      '*', '+', ',', ';', '=', '%', '@']

/-- Error-freedom of Go `parseHost`. -/
def parseHost (host : String) : Bool :=
  if startsWithL host "[" then
    match lastIdxOf host ']' with
    | none => false
    | some i =>
      if !validOptionalPort (strDrop host (i + 1)) then false
      else
        match strIndex (strTake host i) "%25" with
        | some zone =>
          unescapeOk Encoding.host (strTake host zone).data &&
          unescapeOk Encoding.zone (strSlice host zone i).data &&
          unescapeOk Encoding.host (strDrop host i).data
        | none => unescapeOk Encoding.host host.data
  else
    (match lastIdxOf host ':' with
     | some i => validOptionalPort (strDrop host i)
     | none => true) &&
    unescapeOk Encoding.host host.data

/-- Error-freedom of Go `parseAuthority`. -/
def parseAuthority (authority : String) : Bool :=
  match lastIdxOf authority '@' with
  | none => parseHost authority
  | some i =>
    parseHost (strDrop authority (i + 1)) &&
    (let userinfo := strTake authority i
     validUserinfo userinfo &&
     (if !(userinfo.data.any (fun c => c == ':')) then
        unescapeOk Encoding.userPassword userinfo.data
      else
        unescapeOk Encoding.userPassword (cutBefore userinfo ':').data &&
        unescapeOk Encoding.userPassword (strDrop userinfo ((cutBefore userinfo ':').data.length + 1)).data))

/-- Go `getScheme` loop.  `raw` is the whole input, `i` the current index,
and the third argument the remaining characters. -/
def getSchemeAux (raw : List Char) : Nat → List Char → Option (List Char × List Char)
  | _, [] => some ([], raw)
  | i, c :: cs =>
    if isAlpha c then getSchemeAux raw (i + 1) cs
    else if isDigit c || c = '+' || c = '-' || c = '.' then
      if i = 0 then some ([], raw) else getSchemeAux raw (i + 1) cs
    else if c = ':' then
      if i = 0 then none else some (raw.take i, raw.drop (i + 1))
    else some ([], raw)

/-- Go `getScheme`: `none` models the "missing protocol scheme" error. -/
def getScheme (s : String) : Option (String × String) :=
  match getSchemeAux s.data 0 s.data with
  | none => none
  | some (a, b) => some (⟨a⟩, ⟨b⟩)

/-- The query-stripping step of Go `parse`: on `ForceQuery` input drop the
final `'?'`, otherwise `rest, RawQuery, _ = strings.Cut(rest, "?")`. -/
def stripQuery (rest : String) : String :=
  if endsWithL rest "?" && !((strTake rest (rest.data.length - 1)).data.any (fun c => c == '?')) then
    strTake rest (rest.data.length - 1)
  else
    cutBefore rest '?'

/-- Error-freedom of Go `url.ParseRequestURI`, i.e. `parse(rawURL, true)`.
The `viaRequest = true` branches are inlined; the URL fields other than the
scheme do not influence success and are dropped. -/
def parseRequestURI (rawURL : String) : Bool :=
  if containsCTLByte rawURL then false
  else if rawURL = "" then false
  else if rawURL = "*" then true
  else
    match getScheme rawURL with
    | none => false
    | some (scheme, afterScheme) =>
      let rest := stripQuery afterScheme
      if !startsWithL rest "/" then
        -- a rootless path is opaque when a scheme is present (success),
        -- and "invalid URI for request" otherwise
        scheme != ""
      else
        if scheme != "" && startsWithL rest "//" then
          let authority : String := ⟨(strDrop rest 2).data.takeWhile (fun c => c != '/')⟩
          let rest2 : String := ⟨(strDrop rest 2).data.dropWhile (fun c => c != '/')⟩
          parseAuthority authority && unescapeOk Encoding.path rest2.data
        else
          unescapeOk Encoding.path rest.data

end GoURL

/-- `isValidURLString` from `src/api/v1/redirector.go`: whether
`url.ParseRequestURI` returns a nil error. -/
def isValidURLString (s : String) : Bool :=
  GoURL.parseRequestURI s

/-! Data model (`storepb.Shortcut`, `store.Activity`) -/

/-- `storepb.Visibility` (proto enum). -/
inductive Visibility
  | PUBLIC
  | WORKSPACE
  | PRIVATE
deriving DecidableEq

/-- `storepb.OpenGraphMetadata`: the three Open Graph fields. -/
structure OGMetadata where
  title : String
  description : String
  image : String
deriving DecidableEq

/-- The slice of `storepb.Shortcut` the redirector reads.  Go's `int32`
identifiers are modelled as `Int`; the handler only compares them. -/
structure Shortcut where
  id : Int
  creatorId : Int
  name : String
  link : String
  visibility : Visibility
  ogMetadata : Option OGMetadata
deriving DecidableEq

/-- `ActivityShorcutViewPayload` (name, typo included, from the Go code):
the payload JSON-marshalled into the activity record.  Marshalling of this
field shape cannot fail, so the payload is kept structured. -/
structure ActivityShorcutViewPayload where
  shortcutID : Int
  ip : String
  referer : String
  userAgent : String
deriving DecidableEq

/-- Modelled from the spec: the bot identity constant `BotID` is declared
outside the provided sources; its concrete value is irrelevant to every
claim, only that all view activities carry it. -/
def BotID : Int := 0

/-- Modelled from the spec: the activity type tag `store.ActivityShortcutView`
is declared outside the provided sources; its value is irrelevant to the
claims. -/
def ActivityShortcutView : String := "shortcut.view"

/-- Modelled from the spec: the activity level tag `store.ActivityInfo` is
declared outside the provided sources; its value is irrelevant to the
claims. -/
def ActivityInfo : String := "INFO"

/-- The slice of `store.Activity` the redirector writes. -/
structure Activity where
  creatorID : Int
  activityType : String
  level : String
  payload : ActivityShorcutViewPayload
deriving DecidableEq

/-! Request, store and response model -/

/-- The data the handler reads from the `echo.Context`: the wildcard route
parameter values, the authenticated caller id (`c.Get(userIDContextKey)`
cast to `int32`, absent when unset or of another type), and the
IP/Referer/User-Agent triple used for the activity payload. -/
structure RedirectRequest where
  paramValues : List String
  userID : Option Int
  realIP : String
  referer : String
  userAgent : String

/-- One call made against the store, recorded in order. -/
inductive StoreCall
  | getShortcut (name : String)
  | createActivity (activity : Activity)
deriving DecidableEq

/-- The store as seen by the handler: `GetShortcut` may fail, return no
match, or return a shortcut; `CreateActivity` may fail. -/
structure Store where
  getShortcut : String → Except String (Option Shortcut)
  createActivity : Activity → Except String Unit

/-- The response shapes the handler can produce: `echo.NewHTTPError`,
`c.Redirect`, `c.String` and `c.HTML`. -/
inductive Response
  | httpError (status : Nat) (message : String)
  | redirect (status : Nat) (location : String)
  | plainText (status : Nat) (body : String)
  | htmlPage (status : Nat) (body : String)
deriving DecidableEq

/-! HTML rendering (`redirectToShortcut`) -/

/-- Go `html.EscapeString` on one character: escapes `&`, `'`, `<`, `>`
and `"`. -/
def escapeChar (c : Char) : String :=
  if c = '&' then "&amp;"
  else if c = Char.ofNat 39 then "&#39;"
  else if c = '<' then "&lt;"
  else if c = '>' then "&gt;"
  else if c = '"' then "&#34;"
  else String.singleton c

/-- Go `html.EscapeString`. -/
def escapeString (s : String) : String :=
  String.join (s.data.map escapeChar)

/-- The `<title>` element of the rendered page (interpolated verbatim). -/
def titleTag (og : OGMetadata) : String :=
  "<title>" ++ (og.title ++ "</title>")

/-- The description `<meta>` tag. -/
def descriptionTag (og : OGMetadata) : String :=
  "<meta name=\"description\" content=\"" ++ (og.description ++ "\" />")

/-- The `og:title` tag. -/
def ogTitleTag (og : OGMetadata) : String :=
  "<meta property=\"og:title\" content=\"" ++ (og.title ++ "\" />")

/-- The `og:description` tag. -/
def ogDescriptionTag (og : OGMetadata) : String :=
  "<meta property=\"og:description\" content=\"" ++ (og.description ++ "\" />")

/-- The `og:image` tag. -/
def ogImageTag (og : OGMetadata) : String :=
  "<meta property=\"og:image\" content=\"" ++ (og.image ++ "\" />")

/-- The static `og:type` tag. -/
def ogTypeTag : String :=
  "<meta property=\"og:type\" content=\"website\" />"

/-- The `twitter:title` tag. -/
def twitterTitleTag (og : OGMetadata) : String :=
  "<meta name=\"twitter:title\" content=\"" ++ (og.title ++ "\" />")

/-- The `twitter:description` tag. -/
def twitterDescriptionTag (og : OGMetadata) : String :=
  "<meta name=\"twitter:description\" content=\"" ++ (og.description ++ "\" />")

/-- The `twitter:image` tag. -/
def twitterImageTag (og : OGMetadata) : String :=
  "<meta name=\"twitter:image\" content=\"" ++ (og.image ++ "\" />")

/-- The static `twitter:card` tag. -/
def twitterCardTag : String :=
  "<meta name=\"twitter:card\" content=\"summary_large_image\" />"

/-- The `og:url` tag appended only for a well-formed link. -/
def ogUrlTag (link : String) : String :=
  "<meta property=\"og:url\" content=\"" ++ (link ++ "\" />")

/-- The unconditional part of `metadataList` in `redirectToShortcut`. -/
def baseMetadataList (og : OGMetadata) : List String :=
  [titleTag og, descriptionTag og, ogTitleTag og, ogDescriptionTag og,
   ogImageTag og, ogTypeTag, twitterTitleTag og, twitterDescriptionTag og,
   twitterImageTag og, twitterCardTag]

/-- `metadataList` after the conditional `append` of the `og:url` tag. -/
def metadataList (og : OGMetadata) (link : String) (isValidURL : Bool) : List String :=
  if isValidURL then baseMetadataList og ++ [ogUrlTag link] else baseMetadataList og

/-- The `<body>` content: a client-side redirect script for a well-formed
link, the HTML-escaped link text otherwise. -/
def renderBody (link : String) (isValidURL : Bool) : String :=
  if isValidURL then
    "<script>window.location.href = \"" ++ (link ++ "\";</script>")
  else
    escapeString link

/-- The `htmlTemplate` instantiation: head contents joined with `""`. -/
def renderHTML (og : OGMetadata) (link : String) (isValidURL : Bool) : String :=
  "<html><head>" ++ (String.join (metadataList og link isValidURL) ++
    ("</head><body>" ++ (renderBody link isValidURL ++ "</body></html>")))

/-- The `OgMetadata == nil || (all three fields empty)` test guarding the
plain (non-HTML) responses. -/
def ogMetadataAbsent (s : Shortcut) : Bool :=
  match s.ogMetadata with
  | none => true
  | some og => og.title = "" && og.description = "" && og.image = ""

/-- `redirectToShortcut` from `src/api/v1/redirector.go`.  In the metadata
branch the Go code dereferences the non-nil `OgMetadata`; the `getD`
default is unreachable there because `ogMetadataAbsent` covers `none`. -/
def redirectToShortcut (s : Shortcut) : Response :=
  let isValidURL := isValidURLString s.link
  if ogMetadataAbsent s then
    if isValidURL then Response.redirect 303 s.link
    else Response.plainText 200 s.link
  else
    let og := s.ogMetadata.getD ⟨"", "", ""⟩
    Response.htmlPage 200 (renderHTML og s.link isValidURL)

/-! The route handler (`registerRedirectorRoutes`) -/

/-- `createShortcutViewActivity` without the store call: the activity
record it builds. -/
def shortcutViewActivity (req : RedirectRequest) (s : Shortcut) : Activity :=
  { creatorID := BotID
    activityType := ActivityShortcutView
    level := ActivityInfo
    payload := { shortcutID := s.id, ip := req.realIP,
                 referer := req.referer, userAgent := req.userAgent } }

/-- The visibility block (lines 36-44): `some e` models an early `return`
with error response `e`, `none` means control falls through. -/
def visibilityGate (s : Shortcut) (userID : Option Int) : Option Response :=
  if s.visibility ≠ Visibility.PUBLIC then
    match userID with
    | none => some (Response.httpError 401 "Unauthorized")
    | some uid =>
      if s.visibility = Visibility.PRIVATE && s.creatorId ≠ uid then
        some (Response.httpError 401 "Unauthorized")
      else none
  else none

/-- The `GET /*` handler registered by `registerRedirectorRoutes`, with the
store calls it performs recorded in order.  The metric enqueue on the
success path is fire-and-forget and carries no observable state, so it is
not modelled. -/
def handleRedirect (st : Store) (req : RedirectRequest) : Response × List StoreCall :=
  match req.paramValues with
  | [] => (Response.httpError 400 "invalid shortcut name", [])
  | shortcutName :: _ =>
    match st.getShortcut shortcutName with
    | Except.error e =>
      (Response.httpError 500 ("failed to get shortcut, err: " ++ e),
       [StoreCall.getShortcut shortcutName])
    | Except.ok none =>
      (Response.redirect 303 ("/404?shortcut=" ++ shortcutName),
       [StoreCall.getShortcut shortcutName])
    | Except.ok (some shortcut) =>
      match visibilityGate shortcut req.userID with
      | some resp => (resp, [StoreCall.getShortcut shortcutName])
      | none =>
        let activity := shortcutViewActivity req shortcut
        match st.createActivity activity with
        | Except.error e =>
          (Response.httpError 500 ("failed to create activity, err: " ++ e),
           [StoreCall.getShortcut shortcutName, StoreCall.createActivity activity])
        | Except.ok _ =>
          (redirectToShortcut shortcut,
           [StoreCall.getShortcut shortcutName, StoreCall.createActivity activity])

/-! Spec-side definitions (for refinement comparisons only) -/

/-- Formalisation of the SPEC's words in §4.1.1: classify the link as
well-formed "if it parses as an absolute request URI (scheme + authority)".
A scheme (per the URI scheme grammar) followed by a `//` authority.  Used
only to compare the spec's classification with the code's. -/
def specWellFormedURL (s : String) : Bool :=
  match GoURL.getScheme s with
  | some (scheme, rest) => scheme != "" && GoURL.startsWithL rest "//"
  | none => false

/-- Hex digit as an upper-case character. -/
def hexDigitUpper (n : Nat) : Char :=
  if n < 10 then Char.ofNat (48 + n) else Char.ofNat (55 + n)

/-- Modelled from the spec: "URL-encode the name" in the not-found redirect
target (§6).  Standard query-component percent-encoding, Go
`url.QueryEscape` (ASCII-faithful): unreserved characters kept, space
becomes `+`, everything else `%XX`.  Used only to compare the spec's words
with the code's redirect target. -/
def urlEncodeQuery (s : String) : String :=
  String.join (s.data.map fun c =>
    if GoURL.isAlpha c || GoURL.isDigit c || c ∈ ['-', '_', '.', '~'] then
      String.singleton c
    else if c = ' ' then "+"
    else "%" ++ (String.singleton (hexDigitUpper (c.toNat / 16)) ++
      String.singleton (hexDigitUpper (c.toNat % 16))))

/-! Small observation helpers -/

/-- The body (or location / message) carried by a response. -/
def responseBody : Response → String
  | Response.httpError _ m => m
  | Response.redirect _ l => l
  | Response.plainText _ b => b
  | Response.htmlPage _ b => b

/-- Substring test (Go `strings.Contains`). -/
def strContainsSub (s pat : String) : Bool :=
  (GoURL.strIndex s pat).isSome

/-- Whether a trace contains a `createActivity` call. -/
def hasActivityCall (calls : List StoreCall) : Bool :=
  calls.any fun c =>
    match c with
    | StoreCall.createActivity _ => true
    | _ => false

/-! Concrete fixtures used by witnesses and counterexamples -/

/-- A store with no shortcuts at all. -/
def emptyStore : Store :=
  { getShortcut := fun _ => Except.ok none
    createActivity := fun _ => Except.ok () }

/-- A store holding exactly one shortcut, found by its name. -/
def singletonStore (s : Shortcut) : Store :=
  { getShortcut := fun n => if n = s.name then Except.ok (some s) else Except.ok none
    createActivity := fun _ => Except.ok () }

/-- A request with fixed client metadata. -/
def mkRequest (params : List String) (uid : Option Int) : RedirectRequest :=
  { paramValues := params
    userID := uid
    realIP := "203.0.113.5"
    referer := "https://referer.example"
    userAgent := "test-agent" }

/-- A WORKSPACE shortcut owned by user 1. -/
def wsShortcut : Shortcut :=
  { id := 11, creatorId := 1, name := "team", link := "https://example.com",
    visibility := Visibility.WORKSPACE, ogMetadata := none }

/-- A PRIVATE shortcut owned by user 3. -/
def privShortcut : Shortcut :=
  { id := 15, creatorId := 3, name := "secret", link := "https://example.com",
    visibility := Visibility.PRIVATE, ogMetadata := none }

/-- A PUBLIC shortcut with no metadata and a well-formed link. -/
def publicPlain : Shortcut :=
  { id := 14, creatorId := 1, name := "home", link := "https://example.com",
    visibility := Visibility.PUBLIC, ogMetadata := none }

/-- A PUBLIC shortcut with metadata and a non-well-formed link. -/
def ogShortcutRaw : Shortcut :=
  { id := 12, creatorId := 1, name := "memo", link := "not a url",
    visibility := Visibility.PUBLIC,
    ogMetadata := some { title := "T", description := "D", image := "I" } }

/-- A PUBLIC shortcut whose metadata title holds an HTML fragment. -/
def ogShortcutInj : Shortcut :=
  { id := 13, creatorId := 1, name := "inj", link := "https://example.com",
    visibility := Visibility.PUBLIC,
    ogMetadata := some { title := "<x>", description := "", image := "" } }

/-- A simple alphabet (letters, digits, `/`, space, dot) used to state the
corrected classification of links: none of these characters is a control
character, a scheme terminator `:`, a query mark `?`, a percent sign or
`*`, so `ParseRequestURI` on such strings is decided by the leading
character alone. -/
def plainChars : List Char :=
  "abcdefghijklmnopqrstuvwxyzABCDEFGHIJKLMNOPQRSTUVWXYZ0123456789/ .".data

/-! Helper lemmas: string discrimination -/

/-- Two strings differing at some character position are different. -/
theorem ne_of_probe (s t : String) (i : Nat) (h : s.data[i]? ≠ t.data[i]?) : s ≠ t :=
  fun he => h (by rw [he])

/-- Appending to a string keeps its early characters. -/
theorem strData_append (a b : String) : (a ++ b).data = a.data ++ b.data := rfl

/-- Concatenations with distinct literal heads are distinct. -/
theorem append_ne_append (a b x y : String) (i : Nat) (ha : i < a.data.length)
    (hb : i < b.data.length) (h : a.data[i]? ≠ b.data[i]?) : a ++ x ≠ b ++ y := by
  apply ne_of_probe _ _ i
  rw [strData_append, strData_append, List.getElem?_append_left ha,
    List.getElem?_append_left hb]
  exact h

/-- A concatenation with a literal head differs from a literal. -/
theorem append_ne_lit (a b x : String) (i : Nat) (ha : i < a.data.length)
    (h : a.data[i]? ≠ b.data[i]?) : a ++ x ≠ b := by
  apply ne_of_probe _ _ i
  rw [strData_append, List.getElem?_append_left ha]
  exact h

/-- The `og:url` tag never coincides with any unconditional metadata tag,
whatever the field values: each pair differs inside the literal prefixes. -/
theorem ogUrlTag_notMem_base (og : OGMetadata) (link : String) :
    ogUrlTag link ∉ baseMetadataList og := by
  intro h
  simp only [baseMetadataList, List.mem_cons, List.not_mem_nil, or_false] at h
  simp only [ogUrlTag, titleTag, descriptionTag, ogTitleTag, ogDescriptionTag,
    ogImageTag, ogTypeTag, twitterTitleTag, twitterDescriptionTag,
    twitterImageTag, twitterCardTag] at h
  rcases h with h | h | h | h | h | h | h | h | h | h
  · exact absurd h (append_ne_append _ _ _ _ 1 (by decide) (by decide) (by decide))
  · exact absurd h (append_ne_append _ _ _ _ 6 (by decide) (by decide) (by decide))
  · exact absurd h (append_ne_append _ _ _ _ 19 (by decide) (by decide) (by decide))
  · exact absurd h (append_ne_append _ _ _ _ 19 (by decide) (by decide) (by decide))
  · exact absurd h (append_ne_append _ _ _ _ 19 (by decide) (by decide) (by decide))
  · exact absurd h (append_ne_lit _ _ _ 19 (by decide) (by decide))
  · exact absurd h (append_ne_append _ _ _ _ 6 (by decide) (by decide) (by decide))
  · exact absurd h (append_ne_append _ _ _ _ 6 (by decide) (by decide) (by decide))
  · exact absurd h (append_ne_append _ _ _ _ 6 (by decide) (by decide) (by decide))
  · exact absurd h (append_ne_lit _ _ _ 6 (by decide) (by decide))

/-- Membership in `metadataList`, resolved against the conditional tail. -/
theorem mem_metadataList_iff (og : OGMetadata) (link : String) (b : Bool) (x : String) :
    x ∈ metadataList og link b ↔ x ∈ baseMetadataList og ∨ (b = true ∧ x = ogUrlTag link) := by
  cases b <;> simp [metadataList]

/-! Helper lemmas: the URL parser on the simple alphabet -/

/-- Every character of the simple alphabet is harmless for the parser. -/
theorem plainChars_facts : ∀ c ∈ plainChars,
    GoURL.isCTLChar c = false ∧ c ≠ ':' ∧ c ≠ '?' ∧ c ≠ '%' ∧ c ≠ '*' := by decide

/-- On colon-free input the scheme loop always yields an empty scheme and
returns the input unchanged. -/
theorem getSchemeAux_plain (raw : List Char) :
    ∀ (l : List Char), (∀ c ∈ l, c ∈ plainChars) → ∀ i,
      GoURL.getSchemeAux raw i l = some ([], raw) := by
  intro l
  induction l with
  | nil => intro _ i; rfl
  | cons c cs ih =>
    intro h i
    have hc := h c (List.mem_cons_self c cs)
    have hcs : ∀ x ∈ cs, x ∈ plainChars := fun x hx => h x (List.mem_cons_of_mem c hx)
    have hcol : c ≠ ':' := (plainChars_facts c hc).2.1
    simp only [GoURL.getSchemeAux]
    split_ifs <;>
      first
        | rfl
        | exact ih hcs _

/-- `getScheme` on input over the simple alphabet. -/
theorem getScheme_plain (s : String) (h : ∀ c ∈ s.data, c ∈ plainChars) :
    GoURL.getScheme s = some ("", s) := by
  unfold GoURL.getScheme
  rw [getSchemeAux_plain s.data s.data h 0]

/-- `takeWhile` keeps a list none of whose elements is the stop symbol. -/
theorem takeWhile_all_ne (l : List Char) (c : Char) (h : ∀ x ∈ l, x ≠ c) :
    l.takeWhile (fun x => x != c) = l := by
  induction l with
  | nil => rfl
  | cons a as ih =>
    have ha : a ≠ c := h a (List.mem_cons_self a as)
    have has : ∀ x ∈ as, x ≠ c := fun x hx => h x (List.mem_cons_of_mem a hx)
    simp [List.takeWhile_cons, bne_iff_ne, ha, ih has]

/-- The query-stripping step is the identity on `?`-free input. -/
theorem stripQuery_plain (s : String) (h : ∀ c ∈ s.data, c ∈ plainChars) :
    GoURL.stripQuery s = s := by
  have hq : ∀ x ∈ s.data, x ≠ '?' := fun x hx => (plainChars_facts x (h x hx)).2.2.1
  have hsuf : GoURL.endsWithL s "?" = false := by
    unfold GoURL.endsWithL
    cases hsx : List.isSuffixOf "?".data s.data
    · rfl
    · exfalso
      have hs : "?".data <:+ s.data := List.isSuffixOf_iff_suffix.mp hsx
      have hmem : '?' ∈ s.data := hs.subset (by decide)
      exact hq '?' hmem rfl
  unfold GoURL.stripQuery
  rw [hsuf]
  simp only [Bool.false_and, Bool.false_eq_true, if_false]
  unfold GoURL.cutBefore
  rw [takeWhile_all_ne s.data '?' hq]

/-- Path unescaping never fails on percent-free input. -/
theorem unescapeOk_path_plain (l : List Char) (h : ∀ c ∈ l, c ≠ '%') :
    GoURL.unescapeOk GoURL.Encoding.path l = true := by
  induction l with
  | nil => rfl
  | cons c cs ih =>
    have hc : ¬(c = '%') := h c (List.mem_cons_self c cs)
    have hcs : ∀ x ∈ cs, x ≠ '%' := fun x hx => h x (List.mem_cons_of_mem c hx)
    have hfalse : ¬(((GoURL.Encoding.path = GoURL.Encoding.host ||
        GoURL.Encoding.path = GoURL.Encoding.zone) && c.toNat < 128 &&
        GoURL.shouldEscapeHost c : Bool) = true) := by simp
    unfold GoURL.unescapeOk
    rw [if_neg hc, if_neg hfalse]
    exact ih hcs

/-- A one-character prefix test is a test on the head character. -/
theorem startsWithL_slash (s : String) :
    GoURL.startsWithL s "/" = true ↔ s.data.head? = some '/' := by
  unfold GoURL.startsWithL
  rw [ List.isPrefixOf_iff_prefix]
  cases s.data with
  | nil => simp
  | cons c cs => simp [List.cons_prefix_cons, eq_comm]

/-- No control character occurs in simple-alphabet input. -/
theorem containsCTLByte_plain (s : String) (h : ∀ c ∈ s.data, c ∈ plainChars) :
    GoURL.containsCTLByte s = false := by
  unfold GoURL.containsCTLByte
  cases hx : s.data.any GoURL.isCTLChar
  · rfl
  · exfalso
    obtain ⟨c, hc, hct⟩ := List.any_eq_true.mp hx
    have := (plainChars_facts c (h c hc)).1
    rw [this] at hct
    exact absurd hct (by simp)

/-- Over the simple alphabet, `ParseRequestURI` accepts exactly the rooted
strings: no scheme can form, so acceptance is decided by the leading
character. -/
theorem isValidURLString_plain (s : String) (hne : s ≠ "")
    (h : ∀ c ∈ s.data, c ∈ plainChars) :
    (isValidURLString s = true ↔ s.data.head? = some '/') := by
  have hstar : s ≠ "*" := by
    intro he
    have hm : '*' ∈ s.data := by rw [he]; decide
    exact (plainChars_facts '*' (h '*' hm)).2.2.2.2 rfl
  have hpct : ∀ c ∈ s.data, c ≠ '%' := fun x hx => (plainChars_facts x (h x hx)).2.2.2.1
  unfold isValidURLString GoURL.parseRequestURI
  rw [containsCTLByte_plain s h, getScheme_plain s h]
  by_cases hh : s.data.head? = some '/'
  · have hsw : GoURL.startsWithL s "/" = true := (startsWithL_slash s).mpr hh
    simp [hne, hstar, stripQuery_plain s h, hsw, hh, unescapeOk_path_plain s.data hpct]
  · have hsw : GoURL.startsWithL s "/" = false := by
      cases hb : GoURL.startsWithL s "/"
      · rfl
      · exact absurd ((startsWithL_slash s).mp hb) hh
    simp [hne, hstar, stripQuery_plain s h, hsw, hh]

/-! Helper lemmas: the handler -/

/-- The renderer only produces redirect, plain-text or HTML responses,
never an `echo.NewHTTPError`. -/
theorem redirectToShortcut_ne_httpError (s : Shortcut) (n : Nat) (m : String) :
    redirectToShortcut s ≠ Response.httpError n m := by
  cases hv : isValidURLString s.link <;> cases ha : ogMetadataAbsent s <;>
    simp [redirectToShortcut, hv, ha]

/-- Exhaustive case analysis of one handler run: exactly one of the six
control paths of `registerRedirectorRoutes` is taken, and each determines
the response and the store-call trace. -/
theorem handleRedirect_cases (st : Store) (req : RedirectRequest) :
    (req.paramValues = [] ∧
      handleRedirect st req = (Response.httpError 400 "invalid shortcut name", [])) ∨
    (∃ name rest, req.paramValues = name :: rest ∧
      ((∃ e, st.getShortcut name = Except.error e ∧
          handleRedirect st req =
            (Response.httpError 500 ("failed to get shortcut, err: " ++ e),
             [StoreCall.getShortcut name])) ∨
       (st.getShortcut name = Except.ok none ∧
          handleRedirect st req =
            (Response.redirect 303 ("/404?shortcut=" ++ name),
             [StoreCall.getShortcut name])) ∨
       (∃ shortcut, st.getShortcut name = Except.ok (some shortcut) ∧
         ((∃ resp, visibilityGate shortcut req.userID = some resp ∧
             handleRedirect st req = (resp, [StoreCall.getShortcut name])) ∨
          (visibilityGate shortcut req.userID = none ∧
            ((∃ e, st.createActivity (shortcutViewActivity req shortcut) = Except.error e ∧
                handleRedirect st req =
                  (Response.httpError 500 ("failed to create activity, err: " ++ e),
                   [StoreCall.getShortcut name,
                    StoreCall.createActivity (shortcutViewActivity req shortcut)])) ∨
             (st.createActivity (shortcutViewActivity req shortcut) = Except.ok () ∧
                handleRedirect st req =
                  (redirectToShortcut shortcut,
                   [StoreCall.getShortcut name,
                    StoreCall.createActivity (shortcutViewActivity req shortcut)])))))))) := by
  obtain ⟨params, uid, ip, ref, ua⟩ := req
  cases params with
  | nil => exact Or.inl ⟨rfl, rfl⟩
  | cons name rest =>
    refine Or.inr ⟨name, rest, rfl, ?_⟩
    cases hs : st.getShortcut name with
    | error e => exact Or.inl ⟨e, rfl, by simp [handleRedirect, hs]⟩
    | ok oshort =>
      cases oshort with
      | none => exact Or.inr (Or.inl ⟨rfl, by simp [handleRedirect, hs]⟩)
      | some shortcut =>
        refine Or.inr (Or.inr ⟨shortcut, rfl, ?_⟩)
        cases hv : visibilityGate shortcut uid with
        | some resp =>
          exact Or.inl ⟨resp, rfl, by simp [handleRedirect, hs, hv]⟩
        | none =>
          refine Or.inr ⟨rfl, ?_⟩
          cases hact : st.createActivity
              (shortcutViewActivity ⟨name :: rest, uid, ip, ref, ua⟩ shortcut) with
          | error e => exact Or.inl ⟨e, rfl, by simp [handleRedirect, hs, hv, hact]⟩
          | ok u =>
            cases u
            exact Or.inr ⟨rfl, by simp [handleRedirect, hs, hv, hact]⟩

/-! Claim C1 -/

/-- C1, counterexample: a WORKSPACE (non-PUBLIC) shortcut requested by an
authenticated caller (id 7) who is not the creator (id 1) succeeds with the
redirect instead of failing with Unauthorized, contradicting the claim that
every non-PUBLIC shortcut requires `callerIdentity == creatorId`. -/
theorem c1_counterexample :
    wsShortcut.visibility ≠ Visibility.PUBLIC ∧
    wsShortcut.creatorId ≠ (7 : Int) ∧
    (handleRedirect (singletonStore wsShortcut) (mkRequest ["team"] (some 7))).fst =
      Response.redirect 303 "https://example.com" ∧
    (handleRedirect (singletonStore wsShortcut) (mkRequest ["team"] (some 7))).fst ≠
      Response.httpError 401 "Unauthorized" := by
  refine ⟨by decide, by decide, ?_, ?_⟩ <;> decide

/-- C1 (amended): for a found shortcut whose visibility is not PUBLIC, the
handler fails with Unauthorized exactly when the caller is unauthenticated,
or the shortcut is PRIVATE and the caller is not its creator; a WORKSPACE
shortcut is served to every authenticated caller. -/
theorem c1_nonpublic_auth (st : Store) (req : RedirectRequest) (name : String)
    (rest : List String) (shortcut : Shortcut)
    (hp : req.paramValues = name :: rest)
    (hs : st.getShortcut name = Except.ok (some shortcut))
    (hv : shortcut.visibility ≠ Visibility.PUBLIC) :
    (handleRedirect st req).fst = Response.httpError 401 "Unauthorized" ↔
      (req.userID = none ∨
        (shortcut.visibility = Visibility.PRIVATE ∧
          ∃ uid, req.userID = some uid ∧ shortcut.creatorId ≠ uid)) := by
  obtain ⟨params, uid, ip, ref, ua⟩ := req
  simp only at hp
  subst hp
  cases uid with
  | none => simp [handleRedirect, hs, visibilityGate, hv]
  | some u =>
    by_cases hpriv : shortcut.visibility = Visibility.PRIVATE ∧ shortcut.creatorId ≠ u
    · have hg : visibilityGate shortcut (some u) =
          some (Response.httpError 401 "Unauthorized") := by
        simp [visibilityGate, hv, hpriv.1, hpriv.2]
      simp only [handleRedirect, hs, hg]
      simp [hpriv.1, hpriv.2]
    · have hg : visibilityGate shortcut (some u) = none := by
        simp only [visibilityGate, if_pos hv]
        rw [if_neg]
        intro hx
        simp only [Bool.and_eq_true, decide_eq_true_eq] at hx
        exact hpriv hx
      cases hact : st.createActivity
          (shortcutViewActivity ⟨name :: rest, some u, ip, ref, ua⟩ shortcut) with
      | error e =>
        simp only [handleRedirect, hs, hg, hact]
        simp [hpriv]
      | ok v =>
        cases v
        simp only [handleRedirect, hs, hg, hact]
        simp [hpriv, redirectToShortcut_ne_httpError shortcut 401 "Unauthorized"]

/-- C1, witness: the amended rule instantiated at a PRIVATE shortcut and an
unauthenticated request, where it yields the Unauthorized error. -/
theorem c1_witness :
    (handleRedirect (singletonStore privShortcut) (mkRequest ["secret"] none)).fst =
      Response.httpError 401 "Unauthorized" ↔
      ((mkRequest ["secret"] none).userID = none ∨
        (privShortcut.visibility = Visibility.PRIVATE ∧
          ∃ uid, (mkRequest ["secret"] none).userID = some uid ∧
            privShortcut.creatorId ≠ uid)) :=
  c1_nonpublic_auth (singletonStore privShortcut) (mkRequest ["secret"] none)
    "secret" [] privShortcut rfl rfl (by decide)

/-! Claim C6 -/

/-- C6, counterexample: a request whose captured path segment is the empty
string (`ParamValues() == [""]`, as echo's `/*` wildcard yields for an
empty segment) passes the `len(ParamValues()) == 0` guard, so the handler
performs a `GetShortcut("")` store call and answers with the 303 not-found
redirect — not with the 400 invalid-request error and zero store calls the
claim demands. -/
theorem c6_counterexample :
    handleRedirect emptyStore (mkRequest [""] none) =
      (Response.redirect 303 "/404?shortcut=", [StoreCall.getShortcut ""]) ∧
    (handleRedirect emptyStore (mkRequest [""] none)).fst ≠
      Response.httpError 400 "invalid shortcut name" ∧
    (handleRedirect emptyStore (mkRequest [""] none)).snd ≠ [] := by
  refine ⟨by decide, by decide, by decide⟩

/-- C6 (amended): the 400 invalid-request response with zero store calls
occurs exactly when no path parameter was captured at all
(`len(ParamValues()) == 0`); a request whose captured segment is the empty
string instead triggers a shortcut lookup for the empty name — one store
call — and, when no shortcut with the empty name exists, receives the 303
not-found redirect. -/
theorem c6_segment_lookup (st : Store) (uid : Option Int) (ip ref ua : String) :
    (handleRedirect st
        { paramValues := [], userID := uid, realIP := ip, referer := ref, userAgent := ua } =
      (Response.httpError 400 "invalid shortcut name", [])) ∧
    (∀ rest, st.getShortcut "" = Except.ok none →
      handleRedirect st
          { paramValues := "" :: rest, userID := uid, realIP := ip, referer := ref, userAgent := ua } =
        (Response.redirect 303 ("/404?shortcut=" ++ ""), [StoreCall.getShortcut ""])) := by
  refine ⟨rfl, ?_⟩
  intro rest hs
  simp [handleRedirect, hs]

/-- C6, witness: the amended rule at the empty store — no captured
parameter gives the 400 with an empty trace, and an empty-string segment
gives the lookup call and the 303 redirect. -/
theorem c6_witness :
    handleRedirect emptyStore (mkRequest [] none) =
      (Response.httpError 400 "invalid shortcut name", []) ∧
    handleRedirect emptyStore (mkRequest [""] none) =
      (Response.redirect 303 ("/404?shortcut=" ++ ""), [StoreCall.getShortcut ""]) :=
  ⟨(c6_segment_lookup emptyStore none "203.0.113.5" "https://referer.example" "test-agent").1,
   (c6_segment_lookup emptyStore none "203.0.113.5" "https://referer.example" "test-agent").2
     [] rfl⟩

/-! Claim C7 -/

/-- C7, counterexample: for the unknown name `a&b` the handler redirects to
`/404?shortcut=a&b`, interpolating the name verbatim; the URL-encoded
target the claim demands would be `/404?shortcut=a%26b`. -/
theorem c7_counterexample :
    handleRedirect emptyStore (mkRequest ["a&b"] none) =
      (Response.redirect 303 "/404?shortcut=a&b", [StoreCall.getShortcut "a&b"]) ∧
    "/404?shortcut=" ++ urlEncodeQuery "a&b" = "/404?shortcut=a%26b" ∧
    "/404?shortcut=a&b" ≠ "/404?shortcut=" ++ urlEncodeQuery "a&b" := by
  refine ⟨rfl, by decide, by decide⟩

/-- C7 (amended): every lookup that finds no shortcut responds with a 303
See Other redirect to `/404?shortcut=<name>` with the attempted name
interpolated verbatim (no URL-encoding), as a normal redirect response
rather than an error, and with the lookup as the only store call. -/
theorem c7_notfound_redirect (st : Store) (req : RedirectRequest)
    (name : String) (rest : List String)
    (hp : req.paramValues = name :: rest)
    (hs : st.getShortcut name = Except.ok none) :
    handleRedirect st req =
      (Response.redirect 303 ("/404?shortcut=" ++ name), [StoreCall.getShortcut name]) := by
  obtain ⟨params, uid, ip, ref, ua⟩ := req
  simp only at hp
  subst hp
  simp [handleRedirect, hs]

/-- C7, witness: the amended rule at a concrete missing name. -/
theorem c7_witness :
    handleRedirect emptyStore (mkRequest ["ghost"] none) =
      (Response.redirect 303 ("/404?shortcut=" ++ "ghost"), [StoreCall.getShortcut "ghost"]) :=
  c7_notfound_redirect emptyStore (mkRequest ["ghost"] none) "ghost" [] rfl rfl

/-! Claim C10 -/

/-- C10: for a PUBLIC shortcut the whole observable outcome — response and
store-call trace — does not depend on the caller identity: the handler
consults the identity only on the non-PUBLIC branch, and the activity
record is built from IP/Referer/User-Agent, not from the caller. -/
theorem c10_public_independent_of_auth (st : Store) (name : String)
    (rest : List String) (ip ref ua : String) (shortcut : Shortcut)
    (u1 u2 : Option Int)
    (hs : st.getShortcut name = Except.ok (some shortcut))
    (hv : shortcut.visibility = Visibility.PUBLIC) :
    handleRedirect st
        { paramValues := name :: rest, userID := u1, realIP := ip, referer := ref, userAgent := ua } =
      handleRedirect st
        { paramValues := name :: rest, userID := u2, realIP := ip, referer := ref, userAgent := ua } := by
  have hg : ∀ u : Option Int, visibilityGate shortcut u = none := by
    intro u
    simp [visibilityGate, hv]
  simp [handleRedirect, hs, hg, shortcutViewActivity]

/-- C10, witness: a PUBLIC shortcut served identically to an authenticated
caller (id 42) and to an anonymous caller. -/
theorem c10_witness :
    handleRedirect (singletonStore publicPlain) (mkRequest ["home"] (some 42)) =
      handleRedirect (singletonStore publicPlain) (mkRequest ["home"] none) :=
  c10_public_independent_of_auth (singletonStore publicPlain) "home" []
    "203.0.113.5" "https://referer.example" "test-agent" publicPlain
    (some 42) none rfl rfl

/-! Claim C9 -/

/-- C9: no view activity is recorded on any failing or not-found path — a
401 response comes with an activity-free trace, the not-found case
short-circuits after the lookup alone, and any recorded activity certifies
that the shortcut was found, the visibility gate passed, and the record is
the view activity of that resolution. -/
theorem c9_activity_only_on_success (st : Store) (req : RedirectRequest) :
    ((handleRedirect st req).fst = Response.httpError 401 "Unauthorized" →
      hasActivityCall (handleRedirect st req).snd = false) ∧
    (∀ name rest, req.paramValues = name :: rest →
      st.getShortcut name = Except.ok none →
      (handleRedirect st req).snd = [StoreCall.getShortcut name]) ∧
    (∀ a, StoreCall.createActivity a ∈ (handleRedirect st req).snd →
      ∃ name rest shortcut, req.paramValues = name :: rest ∧
        st.getShortcut name = Except.ok (some shortcut) ∧
        visibilityGate shortcut req.userID = none ∧
        a = shortcutViewActivity req shortcut) := by
  rcases handleRedirect_cases st req with
    ⟨hp, he⟩ |
    ⟨name, rest, hp, ⟨e, hs, he⟩ | ⟨hs, he⟩ |
      ⟨shortcut, hs, ⟨resp, hg, he⟩ |
        ⟨hg, ⟨e, hact, he⟩ | ⟨hact, he⟩⟩⟩⟩
  · refine ⟨fun _ => by simp [he, hasActivityCall], ?_, ?_⟩
    · intro name rest hp2 _
      rw [hp] at hp2
      exact absurd hp2 (by simp)
    · intro a ha
      rw [he] at ha
      exact absurd ha (by simp)
  · refine ⟨fun _ => by simp [he, hasActivityCall], ?_, ?_⟩
    · intro name2 rest2 hp2 hs2
      rw [hp] at hp2
      obtain ⟨h1, _⟩ := List.cons.inj hp2
      subst h1
      rw [hs] at hs2
      exact absurd hs2 (by simp)
    · intro a ha
      rw [he] at ha
      simp at ha
  · refine ⟨fun _ => by simp [he, hasActivityCall], ?_, ?_⟩
    · intro name2 rest2 hp2 hs2
      rw [hp] at hp2
      obtain ⟨h1, _⟩ := List.cons.inj hp2
      subst h1
      rw [he]
    · intro a ha
      rw [he] at ha
      simp at ha
  · refine ⟨fun _ => by simp [he, hasActivityCall], ?_, ?_⟩
    · intro name2 rest2 hp2 hs2
      rw [hp] at hp2
      obtain ⟨h1, _⟩ := List.cons.inj hp2
      subst h1
      rw [hs] at hs2
      exact absurd hs2 (by simp)
    · intro a ha
      rw [he] at ha
      simp at ha
  · refine ⟨?_, ?_, ?_⟩
    · intro hfst
      rw [he] at hfst
      simp at hfst
    · intro name2 rest2 hp2 hs2
      rw [hp] at hp2
      obtain ⟨h1, _⟩ := List.cons.inj hp2
      subst h1
      rw [hs] at hs2
      exact absurd hs2 (by simp)
    · intro a ha
      rw [he] at ha
      simp at ha
      exact ⟨name, rest, shortcut, hp, hs, hg, ha⟩
  · refine ⟨?_, ?_, ?_⟩
    · intro hfst
      rw [he] at hfst
      exact absurd hfst (redirectToShortcut_ne_httpError shortcut 401 "Unauthorized")
    · intro name2 rest2 hp2 hs2
      rw [hp] at hp2
      obtain ⟨h1, _⟩ := List.cons.inj hp2
      subst h1
      rw [hs] at hs2
      exact absurd hs2 (by simp)
    · intro a ha
      rw [he] at ha
      simp at ha
      exact ⟨name, rest, shortcut, hp, hs, hg, ha⟩

/-- C9, witness: the not-found branch at a concrete missing name performs
exactly the lookup call. -/
theorem c9_witness :
    (handleRedirect emptyStore (mkRequest ["ghost2"] none)).snd =
      [StoreCall.getShortcut "ghost2"] :=
  (c9_activity_only_on_success emptyStore (mkRequest ["ghost2"] none)).2.1
    "ghost2" [] rfl rfl

/-! Claim C4 -/

/-- C4: when `ogMetadata` is absent — nil, or a struct with all three
fields empty — the renderer answers with a 303 See Other redirect to the
link if the link is well-formed, and with a 200 plain-text body holding the
link verbatim otherwise. -/
theorem c4_absent_metadata (s : Shortcut)
    (h : s.ogMetadata = none ∨
      ∃ og, s.ogMetadata = some og ∧
        og.title = "" ∧ og.description = "" ∧ og.image = "") :
    (isValidURLString s.link = true →
      redirectToShortcut s = Response.redirect 303 s.link) ∧
    (isValidURLString s.link = false →
      redirectToShortcut s = Response.plainText 200 s.link) := by
  have habs : ogMetadataAbsent s = true := by
    rcases h with h | ⟨og, hog, h1, h2, h3⟩ <;>
      simp [ogMetadataAbsent, *]
  constructor <;> intro hv <;> simp [redirectToShortcut, habs, hv]

/-- C4, witness: a metadata-free shortcut with a well-formed link is
answered by the 303 redirect, and an all-empty metadata struct with a raw
link by the 200 plain-text body. -/
theorem c4_witness :
    redirectToShortcut publicPlain = Response.redirect 303 publicPlain.link ∧
    redirectToShortcut
        { publicPlain with link := "not a url",
                           ogMetadata := some { title := "", description := "", image := "" } } =
      Response.plainText 200 "not a url" :=
  ⟨(c4_absent_metadata publicPlain (Or.inl rfl)).1 (by decide),
   (c4_absent_metadata _ (Or.inr ⟨_, rfl, rfl, rfl, rfl⟩)).2 (by decide)⟩

/-! Claim C5 -/

/-- C5: with present metadata the renderer answers 200 with the HTML page
built from the metadata tag list and the body; every unconditional tag
(title, description, the `og:*` set, the `twitter:*` set) is in the head
list; a well-formed link adds the `og:url` tag and makes the body the
`window.location.href` redirect script; a raw link leaves the `og:url` tag
out and puts the HTML-escaped link text in the body. -/
theorem c5_present_metadata (s : Shortcut) (og : OGMetadata)
    (hog : s.ogMetadata = some og)
    (hne : ¬(og.title = "" ∧ og.description = "" ∧ og.image = "")) :
    redirectToShortcut s =
      Response.htmlPage 200 (renderHTML og s.link (isValidURLString s.link)) ∧
    (∀ t ∈ baseMetadataList og, t ∈ metadataList og s.link (isValidURLString s.link)) ∧
    (isValidURLString s.link = true →
      metadataList og s.link (isValidURLString s.link) =
        baseMetadataList og ++ [ogUrlTag s.link] ∧
      renderBody s.link (isValidURLString s.link) =
        "<script>window.location.href = \"" ++ (s.link ++ "\";</script>")) ∧
    (isValidURLString s.link = false →
      ogUrlTag s.link ∉ metadataList og s.link (isValidURLString s.link) ∧
      renderBody s.link (isValidURLString s.link) = escapeString s.link) := by
  have habs : ogMetadataAbsent s = false := by
    rw [Bool.eq_false_iff]
    intro hx
    rw [ogMetadataAbsent, hog] at hx
    simp only [Bool.and_eq_true, decide_eq_true_eq] at hx
    exact hne ⟨hx.1.1, hx.1.2, hx.2⟩
  refine ⟨?_, ?_, ?_, ?_⟩
  · simp [redirectToShortcut, habs, hog, renderHTML]
  · intro t ht
    rw [mem_metadataList_iff]
    exact Or.inl ht
  · intro hv
    exact ⟨by simp [metadataList, hv], by simp [renderBody, hv]⟩
  · intro hv
    refine ⟨?_, by simp [renderBody, hv]⟩
    rw [mem_metadataList_iff]
    rintro (h | ⟨hb, _⟩)
    · exact ogUrlTag_notMem_base og s.link h
    · rw [hv] at hb
      exact absurd hb (by simp)

/-- C5, witness: the rule at a shortcut with metadata and a raw link,
projected to the response shape and the escaped body. -/
theorem c5_witness :
    redirectToShortcut ogShortcutRaw =
      Response.htmlPage 200 (renderHTML { title := "T", description := "D", image := "I" }
        ogShortcutRaw.link (isValidURLString ogShortcutRaw.link)) ∧
    renderBody ogShortcutRaw.link (isValidURLString ogShortcutRaw.link) =
      escapeString ogShortcutRaw.link :=
  ⟨(c5_present_metadata ogShortcutRaw { title := "T", description := "D", image := "I" }
      rfl (by decide)).1,
   ((c5_present_metadata ogShortcutRaw { title := "T", description := "D", image := "I" }
      rfl (by decide)).2.2.2 (by decide)).2⟩

/-! Claim C8 -/

set_option maxRecDepth 100000 in
/-- C8, counterexample: for a present-metadata shortcut whose link is not
well-formed, the claim says neither `og:url` nor `twitter:image` is
emitted, yet the `twitter:image` tag is in the rendered head
unconditionally. -/
theorem c8_counterexample :
    isValidURLString ogShortcutRaw.link = false ∧
    twitterImageTag { title := "T", description := "D", image := "I" } ∈
      metadataList { title := "T", description := "D", image := "I" }
        ogShortcutRaw.link (isValidURLString ogShortcutRaw.link) ∧
    strContainsSub (responseBody (redirectToShortcut ogShortcutRaw))
      (twitterImageTag { title := "T", description := "D", image := "I" }) = true := by
  refine ⟨by decide, by decide, by decide⟩

/-- C8 (amended): in the rendered head the `og:url` tag is present exactly
when the link is well-formed, while the `twitter:image` tag (like
`og:image`) is always present, well-formed link or not. -/
theorem c8_url_tag_inclusion (og : OGMetadata) (link : String) :
    twitterImageTag og ∈ metadataList og link (isValidURLString link) ∧
    ogImageTag og ∈ metadataList og link (isValidURLString link) ∧
    (ogUrlTag link ∈ metadataList og link (isValidURLString link) ↔
      isValidURLString link = true) := by
  refine ⟨?_, ?_, ?_⟩
  · rw [mem_metadataList_iff]
    exact Or.inl (by simp [baseMetadataList])
  · rw [mem_metadataList_iff]
    exact Or.inl (by simp [baseMetadataList])
  · rw [mem_metadataList_iff]
    constructor
    · rintro (h | ⟨hb, _⟩)
      · exact absurd h (ogUrlTag_notMem_base og link)
      · exact hb
    · intro hb
      exact Or.inr ⟨hb, rfl⟩

/-! Claim C2 -/

set_option maxRecDepth 100000 in
/-- C2, counterexample: a metadata title holding the HTML fragment `<x>` is
rendered into the page verbatim — the page contains `<title><x></title>`
and not the HTML-escaped `<title>&lt;x&gt;</title>` — so the metadata
fields are not escaped for body-text or attribute contexts as the claim
states. -/
theorem c2_counterexample :
    strContainsSub (responseBody (redirectToShortcut ogShortcutInj))
      "<title><x></title>" = true ∧
    escapeString "<x>" = "&lt;x&gt;" ∧
    strContainsSub (responseBody (redirectToShortcut ogShortcutInj))
      ("<title>" ++ (escapeString "<x>" ++ "</title>")) = false := by
  refine ⟨by decide, by decide, by decide⟩

/-- C2 (amended): no metadata field is HTML-escaped — title, description
and image are interpolated verbatim into the element and attribute
contexts of the head; the only HTML escaping in the renderer is applied to
the link shown as body text when the link is not well-formed, while the
link inside the inline script is also interpolated verbatim. -/
theorem c2_fields_unescaped (og : OGMetadata) (link : String) (b : Bool) :
    "<title>" ++ (og.title ++ "</title>") ∈ metadataList og link b ∧
    "<meta name=\"description\" content=\"" ++ (og.description ++ "\" />") ∈
      metadataList og link b ∧
    "<meta property=\"og:image\" content=\"" ++ (og.image ++ "\" />") ∈
      metadataList og link b ∧
    renderBody link false = escapeString link ∧
    renderBody link true =
      "<script>window.location.href = \"" ++ (link ++ "\";</script>") := by
  refine ⟨?_, ?_, ?_, rfl, rfl⟩ <;>
    · rw [mem_metadataList_iff]
      exact Or.inl (by simp [baseMetadataList, titleTag, descriptionTag, ogImageTag])

/-! Claim C3 -/

/-- C3, counterexample: the rooted path `/foo` has neither a scheme nor an
authority, so the spec classifies it as raw, yet `isValidURLString`
accepts it, because Go's `url.ParseRequestURI` also accepts absolute
paths. -/
theorem c3_counterexample :
    isValidURLString "/foo" = true ∧ specWellFormedURL "/foo" = false := by
  refine ⟨by decide, by decide⟩

/-- C3 (amended): the renderer classifies a link as well-formed exactly
when Go's `url.ParseRequestURI` accepts it: over the plain alphabet
(letters, digits, `/`, space, dot) acceptance is decided by a leading `/`
alone — no scheme or authority is involved — while a scheme without any
authority (`mailto:`) is also accepted, as is a full scheme-and-authority
URL. -/
theorem c3_wellformed_classification (s : String) (hne : s ≠ "")
    (h : ∀ c ∈ s.data, c ∈ plainChars) :
    (isValidURLString s = true ↔ s.data.head? = some '/') ∧
    isValidURLString "mailto:someone" = true ∧
    isValidURLString "https://example.com" = true :=
  ⟨isValidURLString_plain s hne h, by decide, by decide⟩

/-- C3, witness: the corrected classification at the rooted path `/foo`
(accepted) — and, via the characterization, at the plain word `foo`
(rejected). -/
theorem c3_witness :
    ((isValidURLString "/foo" = true ↔ "/foo".data.head? = some '/') ∧
      isValidURLString "mailto:someone" = true ∧
      isValidURLString "https://example.com" = true) ∧
    ((isValidURLString "foo" = true ↔ "foo".data.head? = some '/') ∧
      isValidURLString "mailto:someone" = true ∧
      isValidURLString "https://example.com" = true) :=
  ⟨c3_wellformed_classification "/foo" (by decide) (by decide),
   c3_wellformed_classification "foo" (by decide) (by decide)⟩

end Slash
